import Mathlib

/-!
Raft configuration: a verification development.

Shallow embedding of `config.go` (package `raft`): the `Config` record and the
`DefaultConfig` constructor, followed by models of the parts of the consensus
core that consume the configuration (startup role, log compaction after a
snapshot, AppendEntries batching).
-/

namespace Raft

/-! ## Durations (Go `time` package) -/

/-- Go `time.Duration`: a signed 64-bit count of nanoseconds. -/
abbrev Duration := Int

/-- Go `time.Nanosecond`. -/
def Nanosecond : Duration := 1

/-- Go `time.Microsecond`. -/
def Microsecond : Duration := 1000 * Nanosecond

/-- Go `time.Millisecond`. -/
def Millisecond : Duration := 1000 * Microsecond

/-- Go `time.Second`. -/
def Second : Duration := 1000 * Millisecond

/-! ## Log sinks (Go `io.Writer`) -/

/-- Dynamic value held by a non-nil `io.Writer`: either an `*os.File`, identified by
its descriptor, or some other writer, identified by a tag. -/
inductive Writer where
  | file (fd : Nat)
  | other (tag : Nat)
deriving DecidableEq, Repr

/-- Go `os.Stderr`: the file on descriptor 2. -/
def osStderr : Writer := Writer.file 2

/-! ## `Config` -/

/-- The `Config` struct of `config.go`, field by field. `time.Duration` and `int` are
signed integers, `uint64` is a natural number, and the interface-typed `LogOutput`
is `none` for a nil interface. -/
structure Config where
  HeartbeatTimeout : Duration
  ElectionTimeout : Duration
  CommitTimeout : Duration
  MaxAppendEntries : Int
  ShutdownOnRemove : Bool
  TrailingLogs : Nat
  SnapshotInterval : Duration
  SnapshotThreshold : Nat
  EnableSingleNode : Bool
  LogOutput : Option Writer
deriving DecidableEq, Repr

/-- The zero value of `Config`: what a composite literal gives every field it does
not list. -/
def Config.zero : Config where
  HeartbeatTimeout := 0
  ElectionTimeout := 0
  CommitTimeout := 0
  MaxAppendEntries := 0
  ShutdownOnRemove := false
  TrailingLogs := 0
  SnapshotInterval := 0
  SnapshotThreshold := 0
  EnableSingleNode := false
  LogOutput := none

/-- The composite literal `Config{...}` inside `DefaultConfig`: eight fields are
listed, the others keep their zero value. -/
def DefaultConfig.literal : Config :=
  { Config.zero with
    HeartbeatTimeout := 200 * Millisecond
    ElectionTimeout := 250 * Millisecond
    CommitTimeout := 10 * Millisecond
    MaxAppendEntries := 64
    ShutdownOnRemove := true
    TrailingLogs := 1024
    SnapshotInterval := 150 * Second
    SnapshotThreshold := 8192 }

/-- Allocated `Config` records; a `*Config` is a position in this store. -/
abbrev Heap := List Config

/-- A `*Config` pointer. -/
abbrev ConfigPtr := Nat

/-- Allocation `&Config{...}`: the record is stored in a fresh cell whose address is
returned together with the extended store. -/
def Heap.alloc (h : Heap) (c : Config) : ConfigPtr × Heap :=
  (h.length, h ++ [c])

/-- Pointer dereference `*p`. -/
def Heap.deref (h : Heap) (p : ConfigPtr) : Option Config :=
  h.get? p

/-- `DefaultConfig` of `config.go`: `return &Config{...}`. -/
def DefaultConfig (h : Heap) : ConfigPtr × Heap :=
  Heap.alloc h DefaultConfig.literal

/-- The record behind the pointer a call of `DefaultConfig` returns, read in the store
the call leaves. -/
def DefaultConfig.returned (h : Heap) : Option Config :=
  Heap.deref (DefaultConfig h).2 (DefaultConfig h).1

/-! ## Data model of the consensus core (spec, section 3) -/

/-- Server identifier. -/
abbrev ServerID := String

/-- Member of a configuration: `{ServerID, Address, Voting bool}`. -/
structure Server where
  id : ServerID
  address : String
  voting : Bool
deriving DecidableEq, Repr

/-- Roles of the node state machine: `Follower`, `Candidate`, `Leader` and the terminal
`Shutdown`. -/
inductive Role where
  | Follower
  | Candidate
  | Leader
  | Shutdown
deriving DecidableEq, Repr

/-- Kind of a log entry. -/
inductive EntryKind where
  | Command
  | Configuration
  | NoOp
deriving DecidableEq, Repr

/-- Log entry `{index, term, kind, payload}`; the payload is a byte string. -/
structure LogEntry where
  index : Nat
  term : Nat
  kind : EntryKind
  payload : List Nat
deriving DecidableEq, Repr

/-- The log: an ordered sequence of entries. -/
abbrev Log := List LogEntry

/-- Log Store `firstIndex()`: index of the earliest retained entry, 0 for an empty log. -/
def firstIndex (log : Log) : Nat :=
  match log with
  | [] => 0
  | e :: _ => e.index

/-- Log Store `lastIndex()`: index of the latest entry, 0 for an empty log. -/
def lastIndex (log : Log) : Nat :=
  match log.getLast? with
  | none => 0
  | some e => e.index

/-- Log Store `getEntry(index)`. -/
def getEntry (log : Log) (i : Nat) : Option LogEntry :=
  log.find? (fun e => e.index == i)

/-- Log Store `deleteRange(from,to)`: drops the entries whose index lies in the
inclusive range. -/
def deleteRange (log : Log) (lo hi : Nat) : Log :=
  log.filter (fun e => !(decide (lo ≤ e.index) && decide (e.index ≤ hi)))

/-- Term of the entry stored at an index, 0 when the log holds no such entry. -/
def termAt (log : Log) (i : Nat) : Nat :=
  match getEntry log i with
  | some e => e.term
  | none => 0

/-- Data-model invariant of a log: indices are contiguous, ascending, and start at 1
or later. -/
def LogContiguous (log : Log) : Prop :=
  log.map LogEntry.index = List.range' (firstIndex log) log.length ∧
    ∀ e ∈ log, 1 ≤ e.index

instance (log : Log) : Decidable (LogContiguous log) := by
  unfold LogContiguous
  exact inferInstance

/-! ## Startup role (spec, section 4.1) -/

/-- Modelled from the spec: the startup code of the node state machine is not in
`config.go`. Section 4.1: "Initial state on startup: `Follower` (or `Leader`
immediately if single-node mode is enabled and no peers are configured)." -/
def initialRole (conf : Config) (peers : List Server) : Role :=
  if conf.EnableSingleNode && peers.isEmpty then Role.Leader else Role.Follower

/-! ## Snapshot manager (spec, section 4.5) -/

/-- Persisted snapshot record `{lastIncludedIndex, lastIncludedTerm, configuration}`. -/
structure SnapshotMeta where
  lastIncludedIndex : Nat
  lastIncludedTerm : Nat
  configuration : List Server
deriving DecidableEq, Repr

/-- The part of a node's state the snapshot manager reads and writes. -/
structure SnapshotState where
  log : Log
  lastApplied : Nat
  lastSnapshotIndex : Nat
  configuration : List Server
  snapshots : List SnapshotMeta
deriving DecidableEq, Repr

/-- Modelled from the spec: the log truncation after a snapshot is not in `config.go`.
Sections 3 and 4.5: entries at or before the snapshot point are discarded "except for
a configurable trailing window" of the most recent `trailing` entries, so the range
from the first index up to `snapIdx - trailing` is deleted; nothing is deleted when the
window reaches back to the start of the log. -/
def truncateLog (log : Log) (snapIdx trailing : Nat) : Log :=
  if trailing < snapIdx then deleteRange log (firstIndex log) (snapIdx - trailing) else log

/-- Modelled from the spec: taking a snapshot (section 4.5) persists
`{lastIncludedIndex = lastApplied, lastIncludedTerm, configuration}` and then truncates
the log, keeping `TrailingLogs` entries. -/
def takeSnapshot (conf : Config) (st : SnapshotState) : SnapshotState :=
  { st with
    snapshots :=
      { lastIncludedIndex := st.lastApplied
        lastIncludedTerm := termAt st.log st.lastApplied
        configuration := st.configuration } :: st.snapshots
    lastSnapshotIndex := st.lastApplied
    log := truncateLog st.log st.lastApplied conf.TrailingLogs }

/-- Modelled from the spec: the periodic snapshot check (section 4.5), "if
`lastApplied - lastSnapshotIndex ≥` configured threshold, trigger a snapshot". -/
def snapshotCheck (conf : Config) (st : SnapshotState) : SnapshotState :=
  if conf.SnapshotThreshold ≤ st.lastApplied - st.lastSnapshotIndex then takeSnapshot conf st
  else st

/-- A log of `n` command entries of term 1 with indices `1..n`. -/
def commandLog (n : Nat) : Log :=
  (List.range' 1 n).map (fun i => { index := i, term := 1, kind := EntryKind.Command, payload := [] })

/-- A node that has applied all `n` entries of `commandLog n` and never took a snapshot. -/
def appliedState (n : Nat) : SnapshotState where
  log := commandLog n
  lastApplied := n
  lastSnapshotIndex := 0
  configuration := []
  snapshots := []

/-- A configuration that differs from the default one in the snapshot threshold and the
trailing-log count only. -/
def snapshotConfig (threshold trailing : Nat) : Config :=
  { DefaultConfig.literal with SnapshotThreshold := threshold, TrailingLogs := trailing }

/-! ## Log replication engine (spec, section 4.3) -/

/-- Per-follower replication state `{nextIndex, matchIndex}`. -/
structure PeerReplState where
  nextIndex : Nat
  matchIndex : Nat
deriving DecidableEq, Repr

/-- The part of a leader's state the replication engine reads. -/
structure LeaderState where
  id : ServerID
  currentTerm : Nat
  log : Log
  commitIndex : Nat
  peers : List (ServerID × PeerReplState)
deriving DecidableEq, Repr

/-- AppendEntries request `{term, leaderId, prevLogIndex, prevLogTerm, entries, leaderCommit}`. -/
structure AppendEntriesRequest where
  term : Nat
  leaderId : ServerID
  prevLogIndex : Nat
  prevLogTerm : Nat
  entries : List LogEntry
  leaderCommit : Nat
deriving DecidableEq, Repr

/-- Next index to send to a follower; a follower without replication state yet starts at
the leader's last log index + 1. -/
def nextIndexOf (ls : LeaderState) (follower : ServerID) : Nat :=
  match ls.peers.lookup follower with
  | some p => p.nextIndex
  | none => lastIndex ls.log + 1

/-- Modelled from the spec: the construction of an AppendEntries request is not in
`config.go`. Section 4.3: the request carries the entries from the follower's
`nextIndex` on, and the "batch size is capped at a configured maximum entry count per
RPC", here `MaxAppendEntries`. -/
def buildAppendEntries (conf : Config) (ls : LeaderState) (follower : ServerID) :
    AppendEntriesRequest :=
  let next := nextIndexOf ls follower
  { term := ls.currentTerm
    leaderId := ls.id
    prevLogIndex := next - 1
    prevLogTerm := termAt ls.log (next - 1)
    entries := (ls.log.filter (fun e => decide (next ≤ e.index))).take conf.MaxAppendEntries.toNat
    leaderCommit := ls.commitIndex }

/-- A configuration that differs from the default one in `MaxAppendEntries` only, which
is set to the Go `int` value -1. -/
def negativeBatchConfig : Config :=
  { DefaultConfig.literal with MaxAppendEntries := -1 }

/-- A leader of term 1 holding `commandLog n`, with one follower `"b"` that has
acknowledged nothing yet. -/
def leaderWith (n : Nat) : LeaderState where
  id := "a"
  currentTerm := 1
  log := commandLog n
  commitIndex := 0
  peers := [("b", { nextIndex := 1, matchIndex := 0 })]

end Raft

namespace Raft

theorem deref_alloc (h : Heap) (c : Config) :
    Heap.deref (Heap.alloc h c).2 (Heap.alloc h c).1 = some c := by
  simp [Heap.deref, Heap.alloc]

theorem deref_alloc_old (h : Heap) (c : Config) (p : ConfigPtr) (hp : p < h.length) :
    Heap.deref (Heap.alloc h c).2 p = Heap.deref h p := by
  simp [Heap.deref, Heap.alloc, List.getElem?_append_left hp]

theorem returned_eq (h : Heap) : DefaultConfig.returned h = some DefaultConfig.literal := by
  simp [DefaultConfig.returned, DefaultConfig, deref_alloc]

theorem deref_alloc_alloc (h : Heap) (c d : Config) :
    Heap.deref (Heap.alloc (Heap.alloc h c).2 d).2 (Heap.alloc h c).1 = some c := by
  rw [deref_alloc_old _ _ _ (by simp [Heap.alloc])]
  exact deref_alloc h c

theorem literal_eq :
    DefaultConfig.literal =
      { HeartbeatTimeout := 200000000
        ElectionTimeout := 250000000
        CommitTimeout := 10000000
        MaxAppendEntries := 64
        ShutdownOnRemove := true
        TrailingLogs := 1024
        SnapshotInterval := 150000000000
        SnapshotThreshold := 8192
        EnableSingleNode := false
        LogOutput := none } := by
  decide

/-! ## Claims about `DefaultConfig` -/

/-- C1: in the configuration returned by `DefaultConfig`, `CommitTimeout` is strictly
positive, strictly below `HeartbeatTimeout`, and at most a tenth of it (durations as
nanosecond counts). -/
theorem DefaultConfig_commitTimeout_far_below_heartbeat (h : Heap) :
    ∃ c, DefaultConfig.returned h = some c ∧
      0 < c.CommitTimeout ∧
      c.CommitTimeout < c.HeartbeatTimeout ∧
      10 * c.CommitTimeout ≤ c.HeartbeatTimeout := by
  refine ⟨DefaultConfig.literal, returned_eq h, ?_, ?_, ?_⟩ <;> decide

/-- C2: the configuration returned by `DefaultConfig` has `EnableSingleNode = false`. -/
theorem DefaultConfig_enableSingleNode_false (h : Heap) :
    ∃ c, DefaultConfig.returned h = some c ∧ c.EnableSingleNode = false :=
  ⟨DefaultConfig.literal, returned_eq h, by decide⟩

/-- C3: the field comment documents `os.Stderr` as the default of `LogOutput`, and the
code departs from it: the configuration returned by `DefaultConfig`, in whatever store
it is called, has `LogOutput` nil, which is not the `os.Stderr` writer. -/
theorem DefaultConfig_logOutput_not_stderr (h : Heap) :
    ∃ c, DefaultConfig.returned h = some c ∧
      c.LogOutput = none ∧ c.LogOutput ≠ some osStderr :=
  ⟨DefaultConfig.literal, returned_eq h, by decide, by decide⟩

/-- C8: `DefaultConfig` returns exactly the record with the eight listed values
(durations in nanoseconds), `EnableSingleNode` and `LogOutput` at their zero values;
two successive calls return distinct pointers to equal records, and calls in unrelated
stores return equal records too. -/
theorem DefaultConfig_returns_exact_record (h h' : Heap) :
    DefaultConfig.returned h =
        some { HeartbeatTimeout := 200000000
               ElectionTimeout := 250000000
               CommitTimeout := 10000000
               MaxAppendEntries := 64
               ShutdownOnRemove := true
               TrailingLogs := 1024
               SnapshotInterval := 150000000000
               SnapshotThreshold := 8192
               EnableSingleNode := Config.zero.EnableSingleNode
               LogOutput := Config.zero.LogOutput } ∧
      (DefaultConfig h).1 ≠ (DefaultConfig (DefaultConfig h).2).1 ∧
      Heap.deref (DefaultConfig (DefaultConfig h).2).2 (DefaultConfig h).1 =
        Heap.deref (DefaultConfig (DefaultConfig h).2).2 (DefaultConfig (DefaultConfig h).2).1 ∧
      Heap.deref (DefaultConfig (DefaultConfig h).2).2 (DefaultConfig h).1 =
        DefaultConfig.returned h ∧
      DefaultConfig.returned h = DefaultConfig.returned h' ∧
      Config.zero.EnableSingleNode = false ∧ Config.zero.LogOutput = none := by
  refine ⟨?_, ?_, ?_, ?_, ?_, rfl, rfl⟩
  · rw [returned_eq, literal_eq]; rfl
  · simp [DefaultConfig, Heap.alloc]
  · unfold DefaultConfig
    rw [deref_alloc_alloc, deref_alloc]
  · unfold DefaultConfig
    rw [deref_alloc_alloc, returned_eq]
  · rw [returned_eq, returned_eq]

/-! ## Startup role -/

/-- C4: for every configuration and peer set the initial role is `Leader` exactly when
`EnableSingleNode` is set and no peers are configured, and `Follower` in every other
case; with `EnableSingleNode` false a node without peers starts as `Follower`, and so
does every node started from the default configuration. -/
theorem initialRole_leader_iff_single_node (conf : Config) (peers : List Server) :
    (initialRole conf peers = Role.Leader ↔ (conf.EnableSingleNode = true ∧ peers = [])) ∧
      (initialRole conf peers = Role.Follower ↔ ¬ (conf.EnableSingleNode = true ∧ peers = [])) ∧
      initialRole { conf with EnableSingleNode := false } [] = Role.Follower ∧
      initialRole { conf with EnableSingleNode := false } [] ≠ Role.Leader ∧
      initialRole DefaultConfig.literal peers = Role.Follower := by
  refine ⟨?_, ?_, ?_, ?_, ?_⟩
  · unfold initialRole
    cases conf.EnableSingleNode <;> cases peers <;> simp
  · unfold initialRole
    cases conf.EnableSingleNode <;> cases peers <;> simp
  · simp [initialRole]
  · simp [initialRole]
  · have : DefaultConfig.literal.EnableSingleNode = false := by decide
    simp [initialRole, this]

/-! ## Log lemmas -/

theorem firstIndex_le_of_mem {log : Log} (hwf : LogContiguous log) {e : LogEntry}
    (he : e ∈ log) : firstIndex log ≤ e.index := by
  have hmem : e.index ∈ log.map LogEntry.index := List.mem_map_of_mem _ he
  rw [hwf.1] at hmem
  exact (List.mem_range'_1.1 hmem).1

theorem lastIndex_eq {log : Log} (hwf : LogContiguous log) (hne : log ≠ []) :
    lastIndex log = firstIndex log + log.length - 1 := by
  have hlast : (log.map LogEntry.index).getLast? = log.getLast?.map LogEntry.index :=
    List.getLast?_map _ _
  rw [hwf.1, List.getLast?_range'] at hlast
  have hlen : log.length ≠ 0 := by
    intro h0
    exact hne (List.length_eq_zero.1 h0)
  rw [if_neg hlen] at hlast
  unfold lastIndex
  cases hg : log.getLast? with
  | none => rw [hg] at hlast; simp at hlast
  | some e =>
    rw [hg] at hlast
    simp only [Option.map_some', Option.some.injEq] at hlast
    exact hlast.symm

theorem truncateLog_eq_filter {log : Log} (hwf : LogContiguous log) (snapIdx trailing : Nat) :
    truncateLog log snapIdx trailing =
      log.filter (fun e => decide (snapIdx < e.index + trailing)) := by
  unfold truncateLog deleteRange
  split
  · apply List.filter_congr
    intro e he
    have h1 := firstIndex_le_of_mem hwf he
    rw [Bool.eq_iff_iff]
    simp only [Bool.not_eq_true', Bool.and_eq_false_imp, decide_eq_true_eq, decide_eq_false_iff_not]
    omega
  · symm
    rw [List.filter_eq_self]
    intro e he
    have h1 := hwf.2 e he
    simp only [decide_eq_true_eq]
    omega

theorem filter_range'_window (a n lo k : Nat) (h1 : a ≤ lo) (h2 : lo + k ≤ a + n) :
    (List.range' a n).filter (fun i => decide (lo ≤ i) && decide (i < lo + k)) =
      List.range' lo k := by
  have hsplit : List.range' a n =
      List.range' a (lo - a) ++ (List.range' lo k ++ List.range' (lo + k) (a + n - (lo + k))) := by
    rw [List.range'_append_1]
    have e1 : lo = a + (lo - a) := by omega
    conv => rhs; rhs; rw [e1]
    rw [List.range'_append_1]
    congr 1
    omega
  rw [hsplit, List.filter_append, List.filter_append]
  have hA : (List.range' a (lo - a)).filter (fun i => decide (lo ≤ i) && decide (i < lo + k)) = [] := by
    rw [List.filter_eq_nil_iff]
    intro i hi
    have := List.mem_range'_1.1 hi
    simp only [Bool.and_eq_true, decide_eq_true_eq]
    omega
  have hB : (List.range' lo k).filter (fun i => decide (lo ≤ i) && decide (i < lo + k)) =
      List.range' lo k := by
    rw [List.filter_eq_self]
    intro i hi
    have := List.mem_range'_1.1 hi
    simp only [Bool.and_eq_true, decide_eq_true_eq]
    omega
  have hC : (List.range' (lo + k) (a + n - (lo + k))).filter
      (fun i => decide (lo ≤ i) && decide (i < lo + k)) = [] := by
    rw [List.filter_eq_nil_iff]
    intro i hi
    have := List.mem_range'_1.1 hi
    simp only [Bool.and_eq_true, decide_eq_true_eq]
    omega
  rw [hA, hB, hC]
  simp

theorem kept_window_indices {log : Log} (hwf : LogContiguous log) (snapIdx trailing : Nat)
    (hN : trailing ≤ snapIdx) (hfirst : firstIndex log + trailing ≤ snapIdx + 1)
    (hlast : snapIdx ≤ lastIndex log) :
    ((truncateLog log snapIdx trailing).filter (fun e => decide (e.index ≤ snapIdx))).map
        LogEntry.index = List.range' (snapIdx + 1 - trailing) trailing := by
  rw [truncateLog_eq_filter hwf, List.filter_filter]
  have hcomp : (fun e : LogEntry => decide (e.index ≤ snapIdx) && decide (snapIdx < e.index + trailing)) =
      (fun i => decide (snapIdx + 1 - trailing ≤ i) && decide (i < snapIdx + 1 - trailing + trailing)) ∘
        LogEntry.index := by
    funext e
    rw [Bool.eq_iff_iff]
    simp only [Function.comp, Bool.and_eq_true, decide_eq_true_eq]
    omega
  rw [hcomp, ← List.filter_map, hwf.1]
  by_cases hne : log = []
  · subst hne
    have h0 : snapIdx = 0 := by simpa [lastIndex] using hlast
    have hT : trailing = 0 := by omega
    subst h0 hT
    simp
  · have hl := lastIndex_eq hwf hne
    have hlen : log.length ≠ 0 := fun h0 => hne (List.length_eq_zero.1 h0)
    apply filter_range'_window <;> omega

theorem contiguous_of_indices {log : Log} {n : Nat}
    (hmap : log.map LogEntry.index = List.range' 1 n) : LogContiguous log := by
  have hlen : log.length = n := by
    have := congrArg List.length hmap
    simpa using this
  refine ⟨?_, ?_⟩
  · rw [hmap, hlen]
    cases log with
    | nil =>
      simp only [List.length_nil] at hlen
      subst hlen
      rfl
    | cons e t =>
      cases n with
      | zero => simp at hlen
      | succ k =>
        simp only [List.map_cons, List.range', List.cons.injEq] at hmap
        simp [firstIndex, hmap.1]
  · intro e he
    have hmem : e.index ∈ log.map LogEntry.index := List.mem_map_of_mem _ he
    rw [hmap] at hmem
    exact (List.mem_range'_1.1 hmem).1

theorem kept_window_length_le {log : Log} (hwf : LogContiguous log) (snapIdx trailing : Nat) :
    ((log.filter (fun e => decide (snapIdx < e.index + trailing))).filter
      (fun e => decide (e.index ≤ snapIdx))).length ≤ trailing := by
  have hsub : List.Sublist
      (((log.filter (fun e => decide (snapIdx < e.index + trailing))).filter
        (fun e => decide (e.index ≤ snapIdx))).map LogEntry.index)
      (log.map LogEntry.index) :=
    ((List.filter_sublist _).trans (List.filter_sublist _)).map _
  have hnd : (((log.filter (fun e => decide (snapIdx < e.index + trailing))).filter
      (fun e => decide (e.index ≤ snapIdx))).map LogEntry.index).Nodup := by
    apply List.Nodup.sublist hsub
    rw [hwf.1]
    exact List.nodup_range' _ _
  have hss : (((log.filter (fun e => decide (snapIdx < e.index + trailing))).filter
      (fun e => decide (e.index ≤ snapIdx))).map LogEntry.index) ⊆
      List.range' (snapIdx + 1 - trailing) trailing := by
    intro i hi
    obtain ⟨e, he, rfl⟩ := List.mem_map.1 hi
    have h2 := (List.mem_filter.1 he).2
    have h1 := (List.mem_filter.1 (List.mem_filter.1 he).1).2
    simp only [decide_eq_true_eq] at h1 h2
    rw [List.mem_range'_1]
    omega
  have hle := (List.subperm_of_subset hnd hss).length_le
  simpa using hle

theorem snapshotCheck_triggered (conf : Config) (st : SnapshotState)
    (htrig : conf.SnapshotThreshold ≤ st.lastApplied - st.lastSnapshotIndex) :
    snapshotCheck conf st = takeSnapshot conf st := by
  unfold snapshotCheck
  rw [if_pos htrig]

/-! ## Snapshot and trailing window -/

/-- C5, as stated, fails: with threshold 2 and `TrailingLogs = 10`, a node that has
applied its 3 entries takes a snapshot at index 3, and the truncation that follows keeps
the 3 entries there are, indices 1 through 3, not 10 entries. No truncation could do
otherwise: every sublist of the 3-entry log has a length other than 10. -/
theorem snapshot_of_short_log_keeps_fewer_than_trailing :
    (snapshotConfig 2 10).SnapshotThreshold ≤
        (appliedState 3).lastApplied - (appliedState 3).lastSnapshotIndex ∧
      (snapshotCheck (snapshotConfig 2 10) (appliedState 3)).lastSnapshotIndex = 3 ∧
      (snapshotCheck (snapshotConfig 2 10) (appliedState 3)).log.map LogEntry.index = [1, 2, 3] ∧
      (snapshotCheck (snapshotConfig 2 10) (appliedState 3)).log.length ≠
        (snapshotConfig 2 10).TrailingLogs ∧
      (∀ l : Log, List.Sublist l (appliedState 3).log →
        l.length ≠ (snapshotConfig 2 10).TrailingLogs) := by
  refine ⟨by decide, by decide, by decide, by decide, ?_⟩
  intro l hl hlen
  have h1 := hl.length_le
  have h2 : (appliedState 3).log.length = 3 := by decide
  have h3 : (snapshotConfig 2 10).TrailingLogs = 10 := by decide
  omega

/-- C5, amended: a snapshot check whose threshold is met on a contiguous log takes the
snapshot at `lastApplied`; the truncation keeps an entry exactly when its index is at
least `lastApplied - N + 1` (`N = TrailingLogs`) and discards every earlier entry. When
the log holds the `N` entries `lastApplied - N + 1 .. lastApplied`, these are exactly the
entries kept up to the snapshot point; when the log starts at or after index
`lastApplied - N + 1`, nothing is discarded; in every case at most `N` entries are kept
up to the snapshot point. With threshold 100, trailing 10 and entries `1..150` all
applied, the snapshot is taken at 150 and the log keeps exactly indices 141 through
150. -/
theorem snapshot_keeps_trailing_window :
    (∀ (conf : Config) (st : SnapshotState), LogContiguous st.log →
      conf.SnapshotThreshold ≤ st.lastApplied - st.lastSnapshotIndex →
      (snapshotCheck conf st).lastSnapshotIndex = st.lastApplied ∧
      (snapshotCheck conf st).snapshots.head?.map SnapshotMeta.lastIncludedIndex =
        some st.lastApplied ∧
      (∀ e, e ∈ (snapshotCheck conf st).log ↔
        e ∈ st.log ∧ st.lastApplied + 1 - conf.TrailingLogs ≤ e.index) ∧
      List.Sublist (snapshotCheck conf st).log st.log ∧
      (conf.TrailingLogs ≤ st.lastApplied →
        firstIndex st.log + conf.TrailingLogs ≤ st.lastApplied + 1 →
        st.lastApplied ≤ lastIndex st.log →
        ((snapshotCheck conf st).log.filter (fun e => decide (e.index ≤ st.lastApplied))).map
          LogEntry.index =
            List.range' (st.lastApplied + 1 - conf.TrailingLogs) conf.TrailingLogs) ∧
      (st.lastApplied < firstIndex st.log + conf.TrailingLogs →
        (snapshotCheck conf st).log = st.log) ∧
      ((snapshotCheck conf st).log.filter (fun e => decide (e.index ≤ st.lastApplied))).length ≤
        conf.TrailingLogs) ∧
    (∀ (conf : Config) (st : SnapshotState),
      conf.SnapshotThreshold = 100 → conf.TrailingLogs = 10 →
      st.log.map LogEntry.index = List.range' 1 150 →
      st.lastApplied = 150 → st.lastSnapshotIndex = 0 →
      (snapshotCheck conf st).lastSnapshotIndex = 150 ∧
      (snapshotCheck conf st).log.map LogEntry.index =
        [141, 142, 143, 144, 145, 146, 147, 148, 149, 150]) := by
  have general : ∀ (conf : Config) (st : SnapshotState), LogContiguous st.log →
      conf.SnapshotThreshold ≤ st.lastApplied - st.lastSnapshotIndex →
      (snapshotCheck conf st).lastSnapshotIndex = st.lastApplied ∧
      (snapshotCheck conf st).log =
        st.log.filter (fun e => decide (st.lastApplied < e.index + conf.TrailingLogs)) := by
    intro conf st hwf htrig
    rw [snapshotCheck_triggered conf st htrig]
    exact ⟨rfl, truncateLog_eq_filter hwf _ _⟩
  constructor
  · intro conf st hwf htrig
    obtain ⟨hidx, hlog⟩ := general conf st hwf htrig
    refine ⟨hidx, ?_, ?_, ?_, ?_, ?_, ?_⟩
    · rw [snapshotCheck_triggered conf st htrig]
      rfl
    · intro e
      rw [hlog, List.mem_filter, decide_eq_true_eq]
      constructor
      · rintro ⟨h1, h2⟩
        exact ⟨h1, by omega⟩
      · rintro ⟨h1, h2⟩
        exact ⟨h1, by omega⟩
    · rw [hlog]
      exact List.filter_sublist _
    · intro hN hfirst hlast
      rw [snapshotCheck_triggered conf st htrig]
      exact kept_window_indices hwf _ _ hN hfirst hlast
    · intro hshort
      rw [hlog, List.filter_eq_self]
      intro e he
      have h1 := firstIndex_le_of_mem hwf he
      simp only [decide_eq_true_eq]
      omega
    · rw [hlog]
      exact kept_window_length_le hwf _ _
  · intro conf st hthr htr hmap happ hsnap
    have hwf : LogContiguous st.log := contiguous_of_indices hmap
    have htrig : conf.SnapshotThreshold ≤ st.lastApplied - st.lastSnapshotIndex := by
      rw [hthr, happ, hsnap]
      decide
    obtain ⟨hidx, hlog⟩ := general conf st hwf htrig
    refine ⟨by rw [hidx, happ], ?_⟩
    have hcongr : st.log.filter (fun e => decide (st.lastApplied < e.index + conf.TrailingLogs)) =
        st.log.filter ((fun i => decide (141 ≤ i) && decide (i < 141 + 10)) ∘ LogEntry.index) := by
      apply List.filter_congr
      intro e he
      have hmem : e.index ∈ st.log.map LogEntry.index := List.mem_map_of_mem _ he
      rw [hmap] at hmem
      have hb := List.mem_range'_1.1 hmem
      rw [Bool.eq_iff_iff, happ, htr]
      simp only [Function.comp, Bool.and_eq_true, decide_eq_true_eq]
      omega
    rw [hlog, hcongr, ← List.filter_map, hmap,
      filter_range'_window 1 150 141 10 (by decide) (by decide)]
    rfl

/-- C5, witness: the amended statement applied to a node with threshold 5 and
`TrailingLogs = 4` that has applied all of its 12 entries. -/
theorem snapshot_keeps_trailing_window_witness :
    LogContiguous (appliedState 12).log ∧
      (snapshotConfig 5 4).SnapshotThreshold ≤
        (appliedState 12).lastApplied - (appliedState 12).lastSnapshotIndex ∧
      (snapshotCheck (snapshotConfig 5 4) (appliedState 12)).lastSnapshotIndex = 12 ∧
      ((snapshotCheck (snapshotConfig 5 4) (appliedState 12)).log.filter
        (fun e => decide (e.index ≤ 12))).map LogEntry.index = [9, 10, 11, 12] :=
  have h := snapshot_keeps_trailing_window.1 (snapshotConfig 5 4) (appliedState 12)
    (by decide) (by decide)
  ⟨by decide, by decide, h.1, h.2.2.2.2.1 (by decide) (by decide) (by decide)⟩

/-! ## AppendEntries batching -/

/-- C6, as stated, fails: `MaxAppendEntries` is a Go `int`, and in a configuration that
sets it to -1 the request built for a follower carries 0 entries, which is more than
-1. No request could do otherwise: no list of entries has a length of at most -1. -/
theorem buildAppendEntries_negative_max_exceeded :
    negativeBatchConfig.MaxAppendEntries = -1 ∧
      (buildAppendEntries negativeBatchConfig (leaderWith 3) "b").entries.length = 0 ∧
      ¬ (((buildAppendEntries negativeBatchConfig (leaderWith 3) "b").entries.length : Int) ≤
        negativeBatchConfig.MaxAppendEntries) ∧
      (∀ l : List LogEntry, ¬ ((l.length : Int) ≤ negativeBatchConfig.MaxAppendEntries)) := by
  refine ⟨by decide, by decide, by decide, ?_⟩
  intro l hl
  have h1 : negativeBatchConfig.MaxAppendEntries = -1 := by decide
  omega

/-- C6, amended: for every leader state and every follower, and for every configuration
whose `MaxAppendEntries` is not negative, the AppendEntries request the leader builds
carries at most `MaxAppendEntries` entries. -/
theorem buildAppendEntries_entries_le_max (conf : Config) (ls : LeaderState)
    (follower : ServerID) (hmax : 0 ≤ conf.MaxAppendEntries) :
    ((buildAppendEntries conf ls follower).entries.length : Int) ≤ conf.MaxAppendEntries := by
  have hle : (buildAppendEntries conf ls follower).entries.length ≤
      conf.MaxAppendEntries.toNat := by
    unfold buildAppendEntries
    exact List.length_take_le _ _
  have hcast : ((conf.MaxAppendEntries.toNat : Nat) : Int) = conf.MaxAppendEntries :=
    Int.toNat_of_nonneg hmax
  omega

/-- C6, amended, witness: under the default configuration a leader holding 100 entries sends a
follower that has none of them a request of 64 entries, within the maximum of 64. -/
theorem buildAppendEntries_entries_le_max_witness :
    0 ≤ DefaultConfig.literal.MaxAppendEntries ∧
      (buildAppendEntries DefaultConfig.literal (leaderWith 100) "b").entries.length = 64 ∧
      (((buildAppendEntries DefaultConfig.literal (leaderWith 100) "b").entries.length : Nat) : Int) ≤
        DefaultConfig.literal.MaxAppendEntries :=
  ⟨by decide, by decide,
    buildAppendEntries_entries_le_max DefaultConfig.literal (leaderWith 100) "b" (by decide)⟩

end Raft
